import Mathlib

/-!
Verification of the lex-intel publish-queue lifecycle, drain loop and
deduplication pipeline.

The definitions below are a shallow embedding of the Python source:

* `src/lib/db.py` — `_normalize_title`, `is_duplicate`, `enqueue_post`,
  `get_publishable`, `mark_published`, `mark_publish_failed`.
* `src/lib/vectors.py` — `find_semantic_duplicates` (with the embedding
  backend and RPC call abstracted as function parameters).
* `src/lib/publish.py` — the drain loop `drain_queue` with the publisher
  registry and credential lookup abstracted as function parameters.

Conventions of the embedding:

* Timestamps are natural numbers counting minutes (the backoff arithmetic
  in the source works in minutes; 30 days = 43200 minutes).
* The Supabase `publish_queue` table is a `List QueueItem`; an update
  `.eq("id", qid)` is a map over the list touching the rows whose id
  matches, and a `select ... .eq("id", qid)` read is `List.find?`.
* A Python function that may raise is embedded as a function into
  `Except String _`; a caught-and-degraded failure shows up as a total
  function.
* The Unicode operations NFKC and `str.lower`, and the regex classes
  `\w` / `\s`, are abstracted as parameters (`nfkc`, `lower`, `isW`,
  `isSp`) of the title-normalization pipeline: their composition with
  the concrete strip/collapse/trim steps is taken from the source.
-/

deriving instance DecidableEq for Except

namespace LexIntel

/-- Status of a `publish_queue` row.  The source stores it as a string
column restricted to these four values; the inductive makes the
"exactly one of {queued, retry_queued, published, failed}" part of the
spec invariant hold by construction. -/
inductive Status where
  | queued
  | retry_queued
  | published
  | failed
  deriving DecidableEq, BEq

/-- One entry of the append-only `publish_log` JSON array.
`at_` is the "at" key (a timestamp), `status` is "published"/"failed",
`detail` carries the platform_id (success) or the error text (failure). -/
structure LogEntry where
  at_ : Nat
  status : String
  detail : String
  deriving DecidableEq

/-- A row of the `publish_queue` table (fields from `enqueue_post` in
`src/lib/db.py` plus the bookkeeping columns used by `get_publishable`,
`mark_published` and `mark_publish_failed`). -/
structure QueueItem where
  id : Nat
  platform : String
  title : Option String
  body : String
  fallback_body : Option String
  urgency : String
  language : String
  priority : Nat
  status : Status
  retry_count : Nat
  max_retries : Nat
  next_retry_at : Option Nat
  publish_log : List LogEntry
  published_at : Option Nat
  platform_id : Option String
  error : Option String
  briefing_id : Option String
  article_id : Option String
  created_at : Nat
  deriving DecidableEq

/-- `select * from publish_queue where id = qid` returning the first row. -/
def lookup (qid : Nat) (tbl : List QueueItem) : Option QueueItem :=
  tbl.find? (fun it => it.id == qid)

/-- `update publish_queue set ... where id = qid`: apply `u` to every row
whose id matches, leave the others untouched. -/
def upd (qid : Nat) (u : QueueItem → QueueItem) (tbl : List QueueItem) : List QueueItem :=
  tbl.map (fun it => if it.id == qid then u it else it)

/-- `priority_map = {"high": 1, "medium": 2, "low": 3}` with
`.get(urgency, 2)` — from `enqueue_post` in `src/lib/db.py`. -/
def priority_of (urgency : String) : Nat :=
  if urgency = "high" then 1
  else if urgency = "medium" then 2
  else if urgency = "low" then 3
  else 2

/-- `enqueue_post` from `src/lib/db.py`: insert a fresh row.
The insert dictionary in the source carries platform/title/body/urgency/
language/priority/fallback_body/briefing_id/article_id; the remaining
columns come from the table defaults.  The table schema is not under
`src/`, so those defaults are
Modelled from the spec: `status=queued`, `retry_count=0`, `max_retries`
fixed at creation (default 3), empty `publish_log`, null
`next_retry_at`/`published_at`/`platform_id`/`error`, and `created_at`
set to the insertion time. -/
def enqueue_post (platform : String) (body : String) (title : Option String)
    (urgency : String) (language : String) (fallback_body : Option String)
    (briefing_id article_id : Option String) (newId : Nat) (now : Nat)
    (tbl : List QueueItem) : List QueueItem :=
  tbl ++ [{ id := newId
            platform := platform
            title := title
            body := body
            fallback_body := fallback_body
            urgency := urgency
            language := language
            priority := priority_of urgency
            status := Status.queued
            retry_count := 0
            max_retries := 3
            next_retry_at := none
            publish_log := []
            published_at := none
            platform_id := none
            error := none
            briefing_id := briefing_id
            article_id := article_id
            created_at := now }]

/-- `mark_published` from `src/lib/db.py`: read the current `publish_log`
(empty if the id matches nothing), append a success entry, then update
status/published_at/platform_id/publish_log and clear `error` on every
row with this id (none, if the id is absent). -/
def mark_published (now : Nat) (qid : Nat) (platform_id : String)
    (tbl : List QueueItem) : List QueueItem :=
  let log0 := match lookup qid tbl with
    | some row => row.publish_log
    | none => []
  let log := log0 ++ [{ at_ := now, status := "published", detail := platform_id }]
  upd qid (fun it =>
    { it with status := Status.published
              published_at := some now
              platform_id := some platform_id
              publish_log := log
              error := none }) tbl

/-- `mark_publish_failed` from `src/lib/db.py`: if the id matches no row,
return silently; otherwise append a failure entry to the log, increment
the retry count, and either schedule a retry with exponential backoff
`5 * 4 ^ retry_count` minutes (when `new_count < max_retries`) or move
to terminal `failed`. -/
def mark_publish_failed (now : Nat) (qid : Nat) (error : String)
    (tbl : List QueueItem) : List QueueItem :=
  match lookup qid tbl with
  | none => tbl
  | some row =>
    let log := row.publish_log ++ [{ at_ := now, status := "failed", detail := error }]
    let new_count := row.retry_count + 1
    if new_count < row.max_retries then
      upd qid (fun it =>
        { it with status := Status.retry_queued
                  retry_count := new_count
                  next_retry_at := some (now + 5 * 4 ^ row.retry_count)
                  publish_log := log
                  error := some error }) tbl
    else
      upd qid (fun it =>
        { it with status := Status.failed
                  retry_count := new_count
                  publish_log := log
                  error := some ("Exhausted " ++ toString row.max_retries
                                  ++ " retries. Last: " ++ error) }) tbl

/-- Lexicographic order on (first key, second key) pairs: this is what a
SQL `order by k1, k2` (both ascending) produces. -/
def lexLe (p q : Nat × Nat) : Prop :=
  p.1 < q.1 ∨ (p.1 = q.1 ∧ p.2 ≤ q.2)

instance : DecidableRel lexLe := fun p q => by
  unfold lexLe; exact inferInstance

/-- `order by priority, created_at` — the ordering of the `queued` query
in `get_publishable`. -/
def queuedLe (a b : QueueItem) : Prop :=
  lexLe (a.priority, a.created_at) (b.priority, b.created_at)

/-- `order by priority, next_retry_at` — the ordering of the retry query
in `get_publishable` (a null `next_retry_at` cannot occur in that query,
the `getD 0` is irrelevant there). -/
def retryLe (a b : QueueItem) : Prop :=
  lexLe (a.priority, a.next_retry_at.getD 0) (b.priority, b.next_retry_at.getD 0)

instance : DecidableRel queuedLe := fun a b => by
  unfold queuedLe; exact inferInstance

instance : DecidableRel retryLe := fun a b => by
  unfold retryLe; exact inferInstance

theorem lexLe_total (p q : Nat × Nat) : lexLe p q ∨ lexLe q p := by
  unfold lexLe
  rcases Nat.lt_trichotomy p.1 q.1 with h | h | h
  · exact Or.inl (Or.inl h)
  · rcases Nat.le_total p.2 q.2 with h2 | h2
    · exact Or.inl (Or.inr ⟨h, h2⟩)
    · exact Or.inr (Or.inr ⟨h.symm, h2⟩)
  · exact Or.inr (Or.inl h)

theorem lexLe_trans {p q s : Nat × Nat} (h1 : lexLe p q) (h2 : lexLe q s) : lexLe p s := by
  unfold lexLe at *
  rcases h1 with h1 | ⟨h1, h1'⟩ <;> rcases h2 with h2 | ⟨h2, h2'⟩
  · exact Or.inl (h1.trans h2)
  · exact Or.inl (h2 ▸ h1)
  · exact Or.inl (h1 ▸ h2)
  · exact Or.inr ⟨h1.trans h2, h1'.trans h2'⟩

instance : IsTotal QueueItem queuedLe := ⟨fun _ _ => lexLe_total _ _⟩

instance : IsTrans QueueItem queuedLe := ⟨fun _ _ _ => lexLe_trans⟩

instance : IsTotal QueueItem retryLe := ⟨fun _ _ => lexLe_total _ _⟩

instance : IsTrans QueueItem retryLe := ⟨fun _ _ _ => lexLe_trans⟩

/-- The optional `.eq("platform", platform)` filter of `get_publishable`. -/
def matchesPlatform (platform : Option String) (it : QueueItem) : Bool :=
  match platform with
  | none => true
  | some p => decide (it.platform = p)

/-- Row filter of the first query in `get_publishable`:
`status = 'queued'` plus the optional platform filter. -/
def queuedPred (platform : Option String) (it : QueueItem) : Bool :=
  decide (it.status = Status.queued) && matchesPlatform platform it

/-- Row filter of the second query in `get_publishable`:
`status = 'retry_queued' and next_retry_at <= now` plus the optional
platform filter (a SQL `lte` comparison against a null column is false). -/
def retryPred (platform : Option String) (now : Nat) (it : QueueItem) : Bool :=
  decide (it.status = Status.retry_queued)
    && (match it.next_retry_at with
        | some t => decide (t ≤ now)
        | none => false)
    && matchesPlatform platform it

/-- The `queued` query of `get_publishable`: filter, order by
priority then created_at, `limit`. -/
def publishableQueued (platform : Option String) (limit : Nat)
    (tbl : List QueueItem) : List QueueItem :=
  (List.insertionSort queuedLe (tbl.filter (queuedPred platform))).take limit

/-- The retry query of `get_publishable`: filter, order by
priority then next_retry_at, `limit`. -/
def publishableRetries (platform : Option String) (limit : Nat) (now : Nat)
    (tbl : List QueueItem) : List QueueItem :=
  (List.insertionSort retryLe (tbl.filter (retryPred platform now))).take limit

/-- `get_publishable` from `src/lib/db.py`: two independent queries, each
with its own `limit`, concatenated with the ready retries first
("they've been waiting"). -/
def get_publishable (platform : Option String) (limit : Nat) (now : Nat)
    (tbl : List QueueItem) : List QueueItem :=
  publishableRetries platform limit now tbl ++ publishableQueued platform limit tbl

/-- Outcome of dispatching one queue item in the drain loop
(the three counters of `drain_queue` in `src/lib/publish.py`). -/
inductive Outcome where
  | published
  | failed
  | skipped
  deriving DecidableEq, BEq

/-- A platform publisher (`publish_linkedin`, `publish_devto`, ... in
`src/lib/publish.py`): called with a body and an optional title, returns
a platform id or raises.  The extra first argument indexes the call site
within one item's dispatch (0 = primary attempt, 1 = fallback attempt),
so that the embedding can represent an effectful publisher whose two
calls in the same loop iteration behave differently. -/
def Publisher : Type :=
  Nat → String → Option String → Except String String

/-- One iteration of the `for item in items` loop of `drain_queue`:
resolve the publisher (`PUBLISHERS.get(plat)`), check the platform
credential (`os.environ.get(env_keys.get(plat, ""))`), try the primary
body, and on failure try the fallback body — which Python only does when
`item.get("fallback_body")` is truthy, i.e. non-null **and** non-empty.
Returns the outcome counted by the loop and the updated queue table. -/
def processItem (reg : String → Option Publisher) (creds : String → Bool)
    (now : Nat) (item : QueueItem) (tbl : List QueueItem) :
    Outcome × List QueueItem :=
  match reg item.platform with
  | none => (Outcome.skipped, tbl)
  | some pub =>
    if creds item.platform then
      match pub 0 item.body item.title with
      | Except.ok pid => (Outcome.published, mark_published now item.id pid tbl)
      | Except.error e =>
        match item.fallback_body with
        | some fb =>
          if fb = "" then
            (Outcome.failed, mark_publish_failed now item.id e tbl)
          else
            match pub 1 fb item.title with
            | Except.ok pid => (Outcome.published, mark_published now item.id pid tbl)
            | Except.error fe =>
              (Outcome.failed,
               mark_publish_failed now item.id
                 ("Primary: " ++ e ++ " | Fallback: " ++ fe) tbl)
        | none => (Outcome.failed, mark_publish_failed now item.id e tbl)
    else (Outcome.skipped, tbl)

/-- Aggregate result of a drain cycle: the three counters returned by
`drain_queue` plus the queue table as mutated through the db layer. -/
structure DrainResult where
  published : Nat
  failed : Nat
  skipped : Nat
  table : List QueueItem
  deriving DecidableEq

/-- The body of `drain_queue`'s loop over the fetched batch. -/
def drainItems (reg : String → Option Publisher) (creds : String → Bool)
    (now : Nat) : List QueueItem → List QueueItem → DrainResult
  | [], tbl => { published := 0, failed := 0, skipped := 0, table := tbl }
  | item :: rest, tbl =>
    let pr := processItem reg creds now item tbl
    let r := drainItems reg creds now rest pr.2
    match pr.1 with
    | Outcome.published => { r with published := r.published + 1 }
    | Outcome.failed => { r with failed := r.failed + 1 }
    | Outcome.skipped => { r with skipped := r.skipped + 1 }

/-- `drain_queue` from `src/lib/publish.py`: fetch the publishable batch
and process it item by item. -/
def drain_queue (reg : String → Option Publisher) (creds : String → Bool)
    (platform : Option String) (limit : Nat) (now : Nat)
    (tbl : List QueueItem) : DrainResult :=
  drainItems reg creds now (get_publishable platform limit now tbl) tbl

/-- The character class kept by `re.sub(r'[^\w\s]', '', ...)`:
word characters (`isW`, the regex `\w`) and whitespace (`isSp`, the
regex `\s`). -/
def keep (isW isSp : Char → Bool) (c : Char) : Bool :=
  isW c || isSp c

/-- `re.sub(r'[^\w\s]', '', title)`: delete every character that is
neither a word character nor whitespace. -/
def stripOther (isW isSp : Char → Bool) (s : List Char) : List Char :=
  s.filter (keep isW isSp)

/-- Scanner for `re.sub(r'\s+', ' ', ...)`: the flag records whether the
previous character belonged to a whitespace run (whose single
replacement `' '` has already been emitted). -/
def collapseAux (isSp : Char → Bool) : Bool → List Char → List Char
  | _, [] => []
  | prevSp, c :: t =>
    if isSp c then
      if prevSp then collapseAux isSp true t
      else ' ' :: collapseAux isSp true t
    else c :: collapseAux isSp false t

/-- `re.sub(r'\s+', ' ', s)`: replace each maximal whitespace run by a
single space. -/
def collapse (isSp : Char → Bool) (s : List Char) : List Char :=
  collapseAux isSp false s

/-- `str.strip()`: drop leading and trailing whitespace. -/
def trim (isSp : Char → Bool) (s : List Char) : List Char :=
  ((s.dropWhile isSp).reverse.dropWhile isSp).reverse

/-- No two adjacent whitespace characters — the shape of
`re.sub(r'\s+', ' ', ...)` output. -/
def noTwoSp (isSp : Char → Bool) (a b : Char) : Prop :=
  ¬ (isSp a = true ∧ isSp b = true)

/-- `_normalize_title` from `src/lib/db.py` (and the identical function
in `src/ahgen/ahgen.py`):
`title = unicodedata.normalize("NFKC", title).lower()`,
`title = re.sub(r'[^\w\s]', '', title)`,
`return re.sub(r'\s+', ' ', title).strip()`.
`nfkc` and `lower` are the Unicode maps, `isW`/`isSp` the regex classes
`\w`/`\s`, all abstracted as parameters. -/
def _normalize_title (nfkc lower : List Char → List Char)
    (isW isSp : Char → Bool) (title : List Char) : List Char :=
  trim isSp (collapse isSp (stripOther isW isSp (lower (nfkc title))))

/-- A row of the `dedup_titles` table. -/
structure DedupRecord where
  title_norm : List Char
  source : String
  seen_at : Nat
  deriving DecidableEq

/-- `is_duplicate` from `src/lib/db.py`.  `db` is the outcome of the
Supabase round trip for the `dedup_titles` query: `Except.error` when the
storage backend raises (there is no try/except around the query in the
source, so that error propagates), `Except.ok rows` when it answers.
The query itself filters on `title_norm = norm` and
`seen_at >= now - 30 days` with `limit 1`; 30 days = 43200 minutes. -/
def is_duplicate (nfkc lower : List Char → List Char)
    (isW isSp : Char → Bool) (db : Except String (List DedupRecord))
    (now : Nat) (title : List Char) : Except String Bool :=
  let norm := _normalize_title nfkc lower isW isSp title
  if norm = [] then Except.ok true
  else
    match db with
    | Except.error e => Except.error e
    | Except.ok rows =>
      Except.ok
        (decide (0 < ((rows.filter (fun r =>
            r.title_norm == norm && decide (now - 43200 ≤ r.seen_at))).take 1).length))

/-- A row returned by the `match_articles` RPC, as repackaged by
`find_semantic_duplicates` (the source also rounds the float score;
rounding is dropped here and the score kept as an integer). -/
structure MatchRow where
  id : String
  score : Int
  source : String
  english_title : String
  deriving DecidableEq

/-- `_make_content` from `src/lib/vectors.py`:
`f"{english_title}\n\n{body[:2000]}"`. -/
def _make_content (title body : String) : String :=
  title ++ "\n\n" ++ String.mk (body.toList.take 2000)

/-- `find_semantic_duplicates` from `src/lib/vectors.py`.  `embed` is
`embed_text`, which returns `[]` on any backend failure (it catches all
exceptions); `rpc` is the `match_articles` Supabase call, whose failure
is caught by the surrounding try/except and converted to `[]`. -/
def find_semantic_duplicates (embed : String → List Int)
    (rpc : List Int → Except String (List MatchRow))
    (title : String) (body : String) : List MatchRow :=
  let emb := embed (_make_content title body)
  if emb = [] then []
  else
    match rpc emb with
    | Except.error _ => []
    | Except.ok rows =>
      rows.map (fun r =>
        { id := r.id, score := r.score, source := r.source
          english_title := r.english_title })

/-- ASCII instantiation of the regex class `\w` (alphanumeric or
underscore), used to evaluate the abstract pipeline on concrete
ASCII inputs. -/
def asciiWord (c : Char) : Bool :=
  c.isAlphanum || c == '_'

/-- ASCII instantiation of the regex class `\s`. -/
def asciiSpace (c : Char) : Bool :=
  c == ' ' || c == '\t' || c == '\n' || c == '\r'

/-- Identity instantiation of the abstract NFKC map (NFKC is the
identity on ASCII). -/
def idNorm : List Char → List Char := id

/-- ASCII instantiation of `str.lower`. -/
def asciiLower (s : List Char) : List Char :=
  s.map Char.toLower

/-- A queue item fresh out of `enqueue_post` with the table defaults,
used as the base of the concrete evaluation fixtures. -/
def baseItem : QueueItem :=
  { id := 1
    platform := "p"
    title := none
    body := "b"
    fallback_body := none
    urgency := "medium"
    language := "en"
    priority := 2
    status := Status.queued
    retry_count := 0
    max_retries := 3
    next_retry_at := none
    publish_log := []
    published_at := none
    platform_id := none
    error := none
    briefing_id := none
    article_id := none
    created_at := 0 }

/-- Fixture: a ready retry item (priority 2, retry time already passed). -/
def itR1 : QueueItem :=
  { baseItem with id := 1, status := Status.retry_queued, next_retry_at := some 0 }

/-- Fixture: a fresh queued item of the same priority as `itR1`. -/
def itQ2 : QueueItem :=
  { baseItem with id := 2 }

/-- Fixture: retry item created first (age 0) but with the later retry
time 100. -/
def itRA : QueueItem :=
  { baseItem with id := 3, status := Status.retry_queued, priority := 1
                  created_at := 0, next_retry_at := some 100 }

/-- Fixture: retry item created later (age 50) but with the earlier
retry time 60. -/
def itRB : QueueItem :=
  { baseItem with id := 4, status := Status.retry_queued, priority := 1
                  created_at := 50, next_retry_at := some 60 }

/-- Fixture publisher whose primary attempt raises and whose fallback
attempt succeeds. -/
def pubPrimaryFails : Publisher :=
  fun attempt _body _title =>
    if attempt = 0 then Except.error ("boom") else Except.ok ("pid")

/-- Fixture registry mapping every platform to `pubPrimaryFails`. -/
def regFB : String → Option Publisher :=
  fun _ => some pubPrimaryFails

/-- Fixture registry with no publisher registered at all. -/
def regEmpty : String → Option Publisher :=
  fun _ => none

/-- Fixture credential store: every platform configured. -/
def credsAll : String → Bool := fun _ => true

/-- Fixture credential store: no platform configured. -/
def credsNone : String → Bool := fun _ => false

/-- Fixture: item whose `fallback_body` is the empty string — non-null,
but falsy in Python. -/
def itemFB : QueueItem :=
  { baseItem with fallback_body := some ("") }

/-- Fixture: item with a non-empty fallback body. -/
def itemFBw : QueueItem :=
  { baseItem with fallback_body := some ("s") }

/-- The per-item part of the spec invariant (§3 of the spec): the
"exactly one status" part holds by construction of `Status`, and the
`retry_count` bounds are tied to the retry/failed statuses. -/
def item_inv (it : QueueItem) : Prop :=
  (it.status = Status.retry_queued → it.retry_count < it.max_retries)
  ∧ (it.status = Status.failed → it.max_retries ≤ it.retry_count)

/-- The spec invariant over the whole `publish_queue` table. -/
def table_inv (tbl : List QueueItem) : Prop :=
  ∀ it ∈ tbl, item_inv it

/-- `id` is the primary key of `publish_queue`: two rows with the same
id are the same row. -/
def unique_ids (tbl : List QueueItem) : Prop :=
  ∀ a ∈ tbl, ∀ b ∈ tbl, a.id = b.id → a = b

/-! ### Helper lemmas about the table primitives -/

theorem lookup_upd (qid : Nat) (u : QueueItem → QueueItem)
    (hu : ∀ it, (u it).id = it.id) (tbl : List QueueItem) :
    lookup qid (upd qid u tbl) = (lookup qid tbl).map u := by
  induction tbl with
  | nil => rfl
  | cons a t ih =>
    unfold lookup upd at ih ⊢
    rw [List.map_cons, List.find?_cons, List.find?_cons]
    by_cases h : (a.id == qid) = true
    · have hua : ((u a).id == qid) = true := by rw [hu a]; exact h
      rw [if_pos h]
      simp only [hua, h]
      rfl
    · have h' : (a.id == qid) = false := by
        exact Bool.not_eq_true _ ▸ h
      have hua : ((u a).id == qid) = false := by rw [hu a]; exact h'
      rw [if_neg h]
      simp only [h', hua]
      exact ih

/-- `lookup` after an id-preserving `upd` of a present row. -/
theorem lookup_upd_some (qid : Nat) (u : QueueItem → QueueItem)
    (tbl : List QueueItem) (row : QueueItem)
    (hu : ∀ it, (u it).id = it.id) (h0 : lookup qid tbl = some row) :
    lookup qid (upd qid u tbl) = some (u row) := by
  rw [lookup_upd qid u hu tbl, h0]
  rfl

/-- One `mark_publish_failed` call on a present row, retry branch. -/
theorem mpf_step_retry (now qid : Nat) (e : String) (tbl : List QueueItem)
    (row : QueueItem) (h0 : lookup qid tbl = some row)
    (hlt : row.retry_count + 1 < row.max_retries) :
    ∃ r, lookup qid (mark_publish_failed now qid e tbl) = some r
      ∧ r.status = Status.retry_queued
      ∧ r.retry_count = row.retry_count + 1
      ∧ r.max_retries = row.max_retries
      ∧ r.next_retry_at = some (now + 5 * 4 ^ row.retry_count) := by
  unfold mark_publish_failed
  rw [h0]
  simp only [if_pos hlt]
  refine ⟨_, lookup_upd_some qid _ tbl row ?_ h0, rfl, rfl, rfl, rfl⟩
  intro it
  rfl

/-- One `mark_publish_failed` call on a present row, exhausted branch:
the status becomes `failed` and `next_retry_at` is left untouched. -/
theorem mpf_step_fail (now qid : Nat) (e : String) (tbl : List QueueItem)
    (row : QueueItem) (h0 : lookup qid tbl = some row)
    (hge : ¬ (row.retry_count + 1 < row.max_retries)) :
    ∃ r, lookup qid (mark_publish_failed now qid e tbl) = some r
      ∧ r.status = Status.failed
      ∧ r.retry_count = row.retry_count + 1
      ∧ r.max_retries = row.max_retries
      ∧ r.next_retry_at = row.next_retry_at := by
  unfold mark_publish_failed
  rw [h0]
  simp only [if_neg hge]
  refine ⟨_, lookup_upd_some qid _ tbl row ?_ h0, rfl, rfl, rfl, rfl⟩
  intro it
  rfl

/-! ### Claim C1 -/

/-- Claim C1, counterexample.  Start from a fresh item
(`retry_count = 0`, `max_retries = 3`) and fail it at times 0, 10 and
100.  The claim predicts that the third call schedules
`next_retry_at` 80 minutes after the failure time (i.e. at 180); the
code instead moves the item to terminal `failed` and leaves
`next_retry_at` at 30 — the value scheduled by the second call.  Only
the 5- and 20-minute waits ever occur. -/
theorem C1_counterexample :
    ((lookup 1 (mark_publish_failed 100 1 ("x")
        (mark_publish_failed 10 1 ("x")
          (mark_publish_failed 0 1 ("x") [baseItem])))).map QueueItem.status
        = some Status.failed)
    ∧ ((lookup 1 (mark_publish_failed 100 1 ("x")
        (mark_publish_failed 10 1 ("x")
          (mark_publish_failed 0 1 ("x") [baseItem])))).bind QueueItem.next_retry_at
        = some 30)
    ∧ some 30 ≠ some (100 + 80) := by
  decide

/-- Claim C1 (amended): for an item with `retry_count = 0` and
`max_retries = 3`, the first failure schedules the retry 5 minutes
after the failure time and the second failure 20 minutes after the
failure time (`5 * 4 ^ k` for `k = 0, 1`); the third failure moves the
item to terminal `failed` without scheduling a third retry, leaving
`next_retry_at` at the value set by the second failure (the 80-minute
wait would require `max_retries ≥ 4`). -/
theorem C1_backoff_amended (tbl : List QueueItem) (qid : Nat)
    (row : QueueItem) (t1 t2 t3 : Nat) (e1 e2 e3 : String)
    (h0 : lookup qid tbl = some row) (h1 : row.retry_count = 0)
    (h2 : row.max_retries = 3) :
    ∃ r1 r2 r3,
      lookup qid (mark_publish_failed t1 qid e1 tbl) = some r1
      ∧ r1.status = Status.retry_queued ∧ r1.retry_count = 1
      ∧ r1.next_retry_at = some (t1 + 5)
      ∧ lookup qid (mark_publish_failed t2 qid e2
          (mark_publish_failed t1 qid e1 tbl)) = some r2
      ∧ r2.status = Status.retry_queued ∧ r2.retry_count = 2
      ∧ r2.next_retry_at = some (t2 + 20)
      ∧ lookup qid (mark_publish_failed t3 qid e3
          (mark_publish_failed t2 qid e2
            (mark_publish_failed t1 qid e1 tbl))) = some r3
      ∧ r3.status = Status.failed ∧ r3.retry_count = 3
      ∧ r3.next_retry_at = some (t2 + 20) := by
  obtain ⟨r1, hl1, hs1, hc1, hm1, hn1⟩ :=
    mpf_step_retry t1 qid e1 tbl row h0 (by rw [h1, h2]; norm_num)
  obtain ⟨r2, hl2, hs2, hc2, hm2, hn2⟩ :=
    mpf_step_retry t2 qid e2 _ r1 hl1 (by rw [hc1, hm1, h1, h2]; norm_num)
  obtain ⟨r3, hl3, hs3, hc3, hm3, hn3⟩ :=
    mpf_step_fail t3 qid e3 _ r2 hl2 (by rw [hc2, hc1, hm2, hm1, h1, h2]; norm_num)
  refine ⟨r1, r2, r3, hl1, hs1, ?_, ?_, hl2, hs2, ?_, ?_, hl3, hs3, ?_, ?_⟩
  · rw [hc1, h1]
  · rw [hn1, h1]; norm_num
  · rw [hc2, hc1, h1]
  · rw [hn2, hc1, h1]; norm_num
  · rw [hc3, hc2, hc1, h1]
  · rw [hn3, hn2, hc1, h1]; norm_num

/-- Witness for `C1_backoff_amended` at a concrete fresh item. -/
theorem C1_backoff_amended_witness :
    lookup 1 [baseItem] = some baseItem
    ∧ baseItem.retry_count = 0 ∧ baseItem.max_retries = 3
    ∧ ∃ r1 r2 r3,
      lookup 1 (mark_publish_failed 0 1 ("x") [baseItem]) = some r1
      ∧ r1.status = Status.retry_queued ∧ r1.retry_count = 1
      ∧ r1.next_retry_at = some (0 + 5)
      ∧ lookup 1 (mark_publish_failed 10 1 ("y")
          (mark_publish_failed 0 1 ("x") [baseItem])) = some r2
      ∧ r2.status = Status.retry_queued ∧ r2.retry_count = 2
      ∧ r2.next_retry_at = some (10 + 20)
      ∧ lookup 1 (mark_publish_failed 100 1 ("z")
          (mark_publish_failed 10 1 ("y")
            (mark_publish_failed 0 1 ("x") [baseItem]))) = some r3
      ∧ r3.status = Status.failed ∧ r3.retry_count = 3
      ∧ r3.next_retry_at = some (10 + 20) :=
  ⟨by decide, by decide, by decide,
    C1_backoff_amended [baseItem] 1 baseItem 0 10 100 ("x") ("y") ("z")
      (by decide) (by decide) (by decide)⟩

/-! ### Claim C9 -/

/-- Claim C9: a title whose normalized form is empty is classified as a
duplicate (`is_duplicate` answers `true`) no matter what the recorded
title history is — and even without consulting the storage backend. -/
theorem C9_is_duplicate_empty_norm (nfkc lower : List Char → List Char)
    (isW isSp : Char → Bool) (db : Except String (List DedupRecord))
    (now : Nat) (title : List Char)
    (h : _normalize_title nfkc lower isW isSp title = []) :
    is_duplicate nfkc lower isW isSp db now title = Except.ok true := by
  unfold is_duplicate
  simp [h]

/-- Witness for `C9_is_duplicate_empty_norm`: the title `"!"` normalizes
to the empty string and is reported as a duplicate. -/
theorem C9_is_duplicate_empty_norm_witness :
    _normalize_title idNorm asciiLower asciiWord asciiSpace ['!'] = []
    ∧ is_duplicate idNorm asciiLower asciiWord asciiSpace
        (Except.error ("down")) 5 ['!'] = Except.ok true :=
  ⟨by decide,
    C9_is_duplicate_empty_norm idNorm asciiLower asciiWord asciiSpace
      (Except.error ("down")) 5 ['!'] (by decide)⟩

/-! ### Claim C10 -/

/-- Claim C10: calling `mark_publish_failed` with an id that matches no
queue row leaves the table exactly as it was (the function returns
early; being a total Lean function, it also cannot raise). -/
theorem C10_mark_publish_failed_missing_id_noop (now qid : Nat)
    (e : String) (tbl : List QueueItem) (h : lookup qid tbl = none) :
    mark_publish_failed now qid e tbl = tbl := by
  unfold mark_publish_failed
  rw [h]

/-- Witness for `C10_mark_publish_failed_missing_id_noop`: id 7 is not
in the one-row table. -/
theorem C10_mark_publish_failed_missing_id_noop_witness :
    lookup 7 [baseItem] = none
    ∧ mark_publish_failed 3 7 ("x") [baseItem] = [baseItem] :=
  ⟨by decide,
    C10_mark_publish_failed_missing_id_noop 3 7 ("x") [baseItem] (by decide)⟩

/-! ### Claim C4 -/

/-- Membership in an updated table: every row either is the update of a
row whose id matched, or is an untouched row. -/
theorem mem_upd {qid : Nat} {u : QueueItem → QueueItem}
    {tbl : List QueueItem} {it : QueueItem} (hit : it ∈ upd qid u tbl) :
    ∃ x ∈ tbl, (x.id = qid ∧ it = u x) ∨ (x.id ≠ qid ∧ it = x) := by
  unfold upd at hit
  obtain ⟨x, hx, he⟩ := List.mem_map.mp hit
  by_cases h : (x.id == qid) = true
  · rw [if_pos h] at he
    exact ⟨x, hx, Or.inl ⟨by simpa using h, he.symm⟩⟩
  · rw [if_neg h] at he
    refine ⟨x, hx, Or.inr ⟨?_, he.symm⟩⟩
    intro hc
    exact h (by simpa using hc)

/-- A successful `lookup` returns a member row whose id matches. -/
theorem lookup_mem {qid : Nat} {tbl : List QueueItem} {row : QueueItem}
    (h : lookup qid tbl = some row) : row ∈ tbl ∧ row.id = qid := by
  unfold lookup at h
  refine ⟨List.mem_of_find?_eq_some h, ?_⟩
  have := List.find?_some h
  simpa using this

/-- Claim C4: `enqueue_post`, `mark_published` and `mark_publish_failed`
preserve the queue invariant: the status is one of the four values (by
construction of `Status`), `retry_count < max_retries` whenever the
status is `retry_queued`, and `retry_count ≥ max_retries` whenever the
status is `failed`.  (Id uniqueness is the table's primary-key
guarantee.) -/
theorem C4_queue_ops_preserve_invariant
    (platform body urgency language pid e : String) (title : Option String)
    (fallback_body briefing_id article_id : Option String)
    (newId now qid : Nat) (tbl : List QueueItem)
    (hinv : table_inv tbl) (huniq : unique_ids tbl) :
    table_inv (enqueue_post platform body title urgency language
        fallback_body briefing_id article_id newId now tbl)
    ∧ table_inv (mark_published now qid pid tbl)
    ∧ table_inv (mark_publish_failed now qid e tbl) := by
  refine ⟨?_, ?_, ?_⟩
  · intro it hit
    unfold enqueue_post at hit
    rcases List.mem_append.mp hit with h | h
    · exact hinv it h
    · rw [List.mem_singleton] at h
      subst h
      exact ⟨fun hst => Status.noConfusion hst, fun hst => Status.noConfusion hst⟩
  · intro it hit
    unfold mark_published at hit
    obtain ⟨x, hx, hc⟩ := mem_upd hit
    rcases hc with ⟨_, he⟩ | ⟨_, he⟩
    · subst he
      exact ⟨fun hst => Status.noConfusion hst, fun hst => Status.noConfusion hst⟩
    · exact he ▸ hinv x hx
  · intro it hit
    unfold mark_publish_failed at hit
    cases hfind : lookup qid tbl with
    | none =>
      rw [hfind] at hit
      exact hinv it hit
    | some row =>
      rw [hfind] at hit
      simp only [] at hit
      obtain ⟨hrowmem, hrowid⟩ := lookup_mem hfind
      by_cases hb : row.retry_count + 1 < row.max_retries
      · rw [if_pos hb] at hit
        obtain ⟨x, hx, hc⟩ := mem_upd hit
        rcases hc with ⟨hxid, he⟩ | ⟨_, he⟩
        · subst he
          have hxr : x = row := huniq x hx row hrowmem (by rw [hxid, hrowid])
          subst hxr
          exact ⟨fun _ => hb, fun hst => Status.noConfusion hst⟩
        · exact he ▸ hinv x hx
      · rw [if_neg hb] at hit
        obtain ⟨x, hx, hc⟩ := mem_upd hit
        rcases hc with ⟨hxid, he⟩ | ⟨_, he⟩
        · subst he
          have hxr : x = row := huniq x hx row hrowmem (by rw [hxid, hrowid])
          subst hxr
          exact ⟨fun hst => Status.noConfusion hst, fun _ => Nat.not_lt.mp hb⟩
        · exact he ▸ hinv x hx

/-- Witness for `C4_queue_ops_preserve_invariant` on a one-row table. -/
theorem C4_queue_ops_preserve_invariant_witness :
    table_inv [baseItem] ∧ unique_ids [baseItem]
    ∧ table_inv (enqueue_post ("devto") ("text") none ("high") ("en")
        none none none 2 9 [baseItem])
    ∧ table_inv (mark_published 9 1 ("pid") [baseItem])
    ∧ table_inv (mark_publish_failed 9 1 ("err") [baseItem]) := by
  have h := C4_queue_ops_preserve_invariant ("devto") ("text") ("high") ("en")
    ("pid") ("err") none none none none 2 9 1 [baseItem]
    (by intro it hit; simp at hit; subst hit; exact ⟨by decide, by decide⟩)
    (by intro a ha b hb _; simp at ha hb; rw [ha, hb])
  refine ⟨?_, ?_, h.1, h.2.1, h.2.2⟩
  · intro it hit; simp at hit; subst hit; exact ⟨by decide, by decide⟩
  · intro a ha b hb _; simp at ha hb; rw [ha, hb]

/-! ### Claim C6 -/

/-- Claim C6: an item whose platform has no registered publisher, or
whose platform credential is absent, is counted as skipped and its
queue state — the entire table, hence status, retry_count,
next_retry_at and publish_log — is untouched. -/
theorem C6_skip_no_mutation (reg : String → Option Publisher)
    (creds : String → Bool) (now : Nat) (item : QueueItem)
    (tbl : List QueueItem)
    (h : reg item.platform = none ∨ creds item.platform = false) :
    processItem reg creds now item tbl = (Outcome.skipped, tbl)
    ∧ (drainItems reg creds now [item] tbl).skipped = 1
    ∧ (drainItems reg creds now [item] tbl).failed = 0
    ∧ (drainItems reg creds now [item] tbl).published = 0
    ∧ (drainItems reg creds now [item] tbl).table = tbl := by
  have hp : processItem reg creds now item tbl = (Outcome.skipped, tbl) := by
    rcases h with h | h
    · unfold processItem
      rw [h]
    · unfold processItem
      cases hr : reg item.platform with
      | none => rfl
      | some pub => simp [h]
  exact ⟨hp, by simp [drainItems, hp], by simp [drainItems, hp],
    by simp [drainItems, hp], by simp [drainItems, hp]⟩

/-- Witness for `C6_skip_no_mutation`: no credential configured. -/
theorem C6_skip_no_mutation_witness :
    processItem regFB credsNone 4 baseItem [baseItem]
      = (Outcome.skipped, [baseItem])
    ∧ (drainItems regFB credsNone 4 [baseItem] [baseItem]).skipped = 1 :=
  ⟨(C6_skip_no_mutation regFB credsNone 4 baseItem [baseItem] (Or.inr rfl)).1,
    (C6_skip_no_mutation regFB credsNone 4 baseItem [baseItem] (Or.inr rfl)).2.1⟩

/-! ### Claim C7 -/

/-- Each item of the batch contributes exactly one of the three
counters. -/
theorem drainItems_count (reg : String → Option Publisher)
    (creds : String → Bool) (now : Nat) :
    ∀ (items : List QueueItem) (tbl : List QueueItem),
    (drainItems reg creds now items tbl).published
      + (drainItems reg creds now items tbl).failed
      + (drainItems reg creds now items tbl).skipped = items.length := by
  intro items
  induction items with
  | nil => intro tbl; rfl
  | cons it rest ih =>
    intro tbl
    have := ih (processItem reg creds now it tbl).2
    unfold drainItems
    cases ho : (processItem reg creds now it tbl).1 <;>
      simp [ho] <;> omega

/-- Claim C7: a drain cycle is a total function of the batch and the
publishers' behaviours (every publisher failure is embedded as an
`Except.error` and handled), and its three counters account for every
item of the fetched batch exactly once — no item's dispatch aborts the
rest. -/
theorem C7_drain_processes_all (reg : String → Option Publisher)
    (creds : String → Bool) (platform : Option String) (limit now : Nat)
    (tbl : List QueueItem) :
    (drain_queue reg creds platform limit now tbl).published
      + (drain_queue reg creds platform limit now tbl).failed
      + (drain_queue reg creds platform limit now tbl).skipped
      = (get_publishable platform limit now tbl).length :=
  drainItems_count reg creds now (get_publishable platform limit now tbl) tbl

/-! ### Claim C3 -/

/-- Claim C3, counterexample.  For a title with a non-empty normalized
form, a failure of the storage query behind the exact-match check is
**not** converted into "no duplicates found": `is_duplicate` has no
try/except around its Supabase query, so the error propagates to the
caller (`deduplicate` in `src/lib/scrape.py`, which does not catch it
either), aborting ingestion. -/
theorem C3_counterexample :
    _normalize_title idNorm asciiLower asciiWord asciiSpace ['a'] ≠ []
    ∧ is_duplicate idNorm asciiLower asciiWord asciiSpace
        (Except.error ("db down")) 50000 ['a'] = Except.error ("db down")
    ∧ (Except.error ("db down") : Except String Bool) ≠ Except.ok false := by
  decide

/-- Claim C3 (amended): the *semantic* check degrades as claimed — if
the embedding backend fails (`embed_text` catches every exception and
answers `[]`) or the vector RPC raises, `find_semantic_duplicates`
returns "no duplicates found" and, being a total function, lets
ingestion proceed.  The exact-match check does not have this property
(see `C3_counterexample`). -/
theorem C3_semantic_check_degrades (embed : String → List Int)
    (rpc : List Int → Except String (List MatchRow)) (title body : String) :
    (embed (_make_content title body) = [] →
      find_semantic_duplicates embed rpc title body = [])
    ∧ (∀ e, rpc (embed (_make_content title body)) = Except.error e →
      find_semantic_duplicates embed rpc title body = []) := by
  constructor
  · intro h
    unfold find_semantic_duplicates
    simp [h]
  · intro e h
    unfold find_semantic_duplicates
    by_cases hemb : embed (_make_content title body) = []
    · simp [hemb]
    · simp [hemb, h]

/-- Witness for `C3_semantic_check_degrades`: embedding backend down. -/
theorem C3_semantic_check_degrades_witness :
    find_semantic_duplicates (fun _ => []) (fun _ => Except.error ("down"))
      ("t") ("b") = [] :=
  (C3_semantic_check_degrades (fun _ => []) (fun _ => Except.error ("down"))
    ("t") ("b")).1 rfl

/-! ### Claim C5 -/

/-- Claim C5, counterexample.  `itemFB` has `fallback_body = some ""` —
non-null, as the claim requires — and a publisher whose fallback
attempt would succeed (`pubPrimaryFails 1 ...` answers `ok`).  Yet the
drain loop checks Python truthiness (`if item.get("fallback_body")`),
so the empty-string fallback is never attempted: the item is counted
failed and ends in `retry_queued`, not `published`. -/
theorem C5_counterexample :
    pubPrimaryFails 1 ("") itemFB.title = Except.ok ("pid")
    ∧ itemFB.fallback_body = some ("")
    ∧ (processItem regFB credsAll 0 itemFB [itemFB]).1 = Outcome.failed
    ∧ ((lookup 1 (processItem regFB credsAll 0 itemFB [itemFB]).2).map
        QueueItem.status = some Status.retry_queued) := by
  decide

/-- Claim C5 (amended): if the primary publish attempt raises, the
item's `fallback_body` is non-null **and non-empty**, and the fallback
publish attempt succeeds, the item is counted as published in the drain
cycle's result and ends in status `published` with `error` cleared. -/
theorem C5_fallback_success_publishes (reg : String → Option Publisher)
    (creds : String → Bool) (now : Nat) (item : QueueItem)
    (tbl : List QueueItem) (pub : Publisher) (e fb pid : String)
    (row : QueueItem)
    (hreg : reg item.platform = some pub)
    (hcred : creds item.platform = true)
    (hprim : pub 0 item.body item.title = Except.error e)
    (hfb : item.fallback_body = some fb) (hne : fb ≠ "")
    (hfbok : pub 1 fb item.title = Except.ok pid)
    (hrow : lookup item.id tbl = some row) :
    (processItem reg creds now item tbl).1 = Outcome.published
    ∧ (∃ r, lookup item.id (processItem reg creds now item tbl).2 = some r
        ∧ r.status = Status.published ∧ r.error = none
        ∧ r.published_at = some now ∧ r.platform_id = some pid)
    ∧ (drainItems reg creds now [item] tbl).published = 1 := by
  have hp : processItem reg creds now item tbl
      = (Outcome.published, mark_published now item.id pid tbl) := by
    unfold processItem
    rw [hreg]
    simp [hcred, hprim, hfb, hne, hfbok]
  refine ⟨by rw [hp], ?_, by simp [drainItems, hp]⟩
  rw [hp]
  unfold mark_published
  exact ⟨_, lookup_upd_some item.id _ tbl row (fun _ => rfl) hrow,
    rfl, rfl, rfl, rfl⟩

/-- Witness for `C5_fallback_success_publishes` on `itemFBw`, whose
fallback body is the non-empty `"s"`. -/
theorem C5_fallback_success_publishes_witness :
    (processItem regFB credsAll 7 itemFBw [itemFBw]).1 = Outcome.published
    ∧ (∃ r, lookup itemFBw.id (processItem regFB credsAll 7 itemFBw [itemFBw]).2 = some r
        ∧ r.status = Status.published ∧ r.error = none
        ∧ r.published_at = some 7 ∧ r.platform_id = some ("pid"))
    ∧ (drainItems regFB credsAll 7 [itemFBw] [itemFBw]).published = 1 :=
  C5_fallback_success_publishes regFB credsAll 7 itemFBw [itemFBw]
    pubPrimaryFails ("boom") ("s") ("pid") itemFBw
    rfl rfl (by decide) rfl (by decide) (by decide) (by decide)

/-! ### Claim C2 -/

/-- Claim C2, counterexample.  Two violations of the claim:
(a) with one ready retry and one queued item and `limit = 1`, the two
independent queries each return their item, so `get_publishable`
returns 2 items — more than `limit`; (b) two ready retries of equal
priority are returned ordered by `next_retry_at` (`itRB` before
`itRA`), not by age — `itRA` is the older item (`created_at` 0 vs 50)
yet comes second. -/
theorem C2_counterexample :
    ((get_publishable none 1 10 [itR1, itQ2]).length = 2
      ∧ ¬ ((get_publishable none 1 10 [itR1, itQ2]).length ≤ 1))
    ∧ (get_publishable none 10 200 [itRA, itRB] = [itRB, itRA]
      ∧ itRA.created_at < itRB.created_at
      ∧ itRA.priority = itRB.priority) := by
  decide

/-- Claim C2 (amended): `get_publishable` returns the ready retries
(status `retry_queued` with `next_retry_at ≤ now`, matching the
platform filter) followed by the fresh queued items (status `queued`,
matching the platform filter); **each of the two groups independently**
is bounded by `limit` (so the total is bounded by `2 * limit`, not by
`limit`); the queued group is sorted by priority then `created_at`
ascending while the retry group is sorted by priority then
`next_retry_at` ascending (not by age); and whenever a group's matching
rows number at most `limit`, exactly those rows are returned in that
group. -/
theorem C2_get_publishable_spec (platform : Option String)
    (limit now : Nat) (tbl : List QueueItem) :
    get_publishable platform limit now tbl
      = publishableRetries platform limit now tbl
        ++ publishableQueued platform limit tbl
    ∧ (publishableRetries platform limit now tbl).length ≤ limit
    ∧ (publishableQueued platform limit tbl).length ≤ limit
    ∧ (get_publishable platform limit now tbl).length ≤ 2 * limit
    ∧ (∀ it ∈ publishableRetries platform limit now tbl,
        it.status = Status.retry_queued
        ∧ (∃ t, it.next_retry_at = some t ∧ t ≤ now)
        ∧ matchesPlatform platform it = true)
    ∧ (∀ it ∈ publishableQueued platform limit tbl,
        it.status = Status.queued ∧ matchesPlatform platform it = true)
    ∧ List.Sorted retryLe (publishableRetries platform limit now tbl)
    ∧ List.Sorted queuedLe (publishableQueued platform limit tbl)
    ∧ ((tbl.filter (retryPred platform now)).length ≤ limit →
        List.Perm (publishableRetries platform limit now tbl)
          (tbl.filter (retryPred platform now)))
    ∧ ((tbl.filter (queuedPred platform)).length ≤ limit →
        List.Perm (publishableQueued platform limit tbl)
          (tbl.filter (queuedPred platform))) := by
  have hlenR : (publishableRetries platform limit now tbl).length ≤ limit := by
    unfold publishableRetries
    rw [List.length_take]
    exact min_le_left _ _
  have hlenQ : (publishableQueued platform limit tbl).length ≤ limit := by
    unfold publishableQueued
    rw [List.length_take]
    exact min_le_left _ _
  refine ⟨rfl, hlenR, hlenQ, ?_, ?_, ?_, ?_, ?_, ?_, ?_⟩
  · unfold get_publishable
    rw [List.length_append]
    omega
  · intro it hit
    unfold publishableRetries at hit
    have hmem : it ∈ tbl.filter (retryPred platform now) :=
      (List.perm_insertionSort retryLe _).subset
        ((List.take_sublist _ _).subset hit)
    have hpred := (List.mem_filter.mp hmem).2
    unfold retryPred at hpred
    rw [Bool.and_eq_true, Bool.and_eq_true] at hpred
    obtain ⟨⟨hst, hnra⟩, hplat⟩ := hpred
    refine ⟨of_decide_eq_true hst, ?_, hplat⟩
    cases hn : it.next_retry_at with
    | none => rw [hn] at hnra; exact absurd hnra (by simp)
    | some t =>
      rw [hn] at hnra
      exact ⟨t, rfl, of_decide_eq_true hnra⟩
  · intro it hit
    unfold publishableQueued at hit
    have hmem : it ∈ tbl.filter (queuedPred platform) :=
      (List.perm_insertionSort queuedLe _).subset
        ((List.take_sublist _ _).subset hit)
    have hpred := (List.mem_filter.mp hmem).2
    unfold queuedPred at hpred
    rw [Bool.and_eq_true] at hpred
    exact ⟨of_decide_eq_true hpred.1, hpred.2⟩
  · exact List.Pairwise.sublist (List.take_sublist _ _)
      (List.sorted_insertionSort retryLe _)
  · exact List.Pairwise.sublist (List.take_sublist _ _)
      (List.sorted_insertionSort queuedLe _)
  · intro h
    unfold publishableRetries
    rw [List.take_of_length_le
      (by rw [(List.perm_insertionSort retryLe _).length_eq]; exact h)]
    exact List.perm_insertionSort retryLe _
  · intro h
    unfold publishableQueued
    rw [List.take_of_length_le
      (by rw [(List.perm_insertionSort queuedLe _).length_eq]; exact h)]
    exact List.perm_insertionSort queuedLe _

/-- Witness for `C2_get_publishable_spec`: on the two-row table the
retry group is exactly the singleton ready retry. -/
theorem C2_get_publishable_spec_witness :
    List.Perm (publishableRetries none 5 10 [itR1, itQ2])
      ([itR1, itQ2].filter (retryPred none 10)) :=
  (C2_get_publishable_spec none 5 10 [itR1, itQ2]).2.2.2.2.2.2.2.2.1
    (by decide)

/-! ### Claim C8 — helper lemmas on the strip/collapse/trim pipeline -/

theorem bool_eq_false {b : Bool} (h : ¬ b = true) : b = false := by
  cases b
  · rfl
  · exact absurd rfl h

/-- Characters of the collapse output: either the inserted space, or a
non-whitespace character of the input. -/
theorem mem_collapseAux (isSp : Char → Bool) :
    ∀ (t : List Char) (b : Bool) (c : Char),
      c ∈ collapseAux isSp b t → c = ' ' ∨ (c ∈ t ∧ isSp c = false) := by
  intro t
  induction t with
  | nil =>
    intro b c h
    exact absurd h (List.not_mem_nil c)
  | cons a t ih =>
    intro b c h
    by_cases ha : isSp a = true
    · cases b with
      | true =>
        rw [show collapseAux isSp true (a :: t) = collapseAux isSp true t by
          simp [collapseAux, ha]] at h
        rcases ih true c h with h' | ⟨h1, h2⟩
        · exact Or.inl h'
        · exact Or.inr ⟨List.mem_cons_of_mem a h1, h2⟩
      | false =>
        rw [show collapseAux isSp false (a :: t) = ' ' :: collapseAux isSp true t by
          simp [collapseAux, ha]] at h
        rcases List.mem_cons.mp h with h' | h'
        · exact Or.inl h'
        · rcases ih true c h' with h'' | ⟨h1, h2⟩
          · exact Or.inl h''
          · exact Or.inr ⟨List.mem_cons_of_mem a h1, h2⟩
    · rw [show collapseAux isSp b (a :: t) = a :: collapseAux isSp false t by
        simp [collapseAux, ha]] at h
      rcases List.mem_cons.mp h with h' | h'
      · rw [h']
        exact Or.inr ⟨List.mem_cons_self a t, bool_eq_false ha⟩
      · rcases ih false c h' with h'' | ⟨h1, h2⟩
        · exact Or.inl h''
        · exact Or.inr ⟨List.mem_cons_of_mem a h1, h2⟩

/-- After a whitespace run has just been closed, the collapse output
starts (if at all) with a non-whitespace character. -/
theorem head?_collapseAux_true (isSp : Char → Bool) :
    ∀ (t : List Char) (h : Char),
      (collapseAux isSp true t).head? = some h → isSp h = false := by
  intro t
  induction t with
  | nil =>
    intro h hh
    exact Option.noConfusion hh
  | cons a t ih =>
    intro h hh
    by_cases ha : isSp a = true
    · rw [show collapseAux isSp true (a :: t) = collapseAux isSp true t by
        simp [collapseAux, ha]] at hh
      exact ih h hh
    · rw [show collapseAux isSp true (a :: t) = a :: collapseAux isSp false t by
        simp [collapseAux, ha]] at hh
      rw [List.head?_cons] at hh
      injection hh with hh
      rw [← hh]
      exact bool_eq_false ha

/-- The collapse output never contains two adjacent whitespace
characters. -/
theorem chain'_collapseAux (isSp : Char → Bool) :
    ∀ (t : List Char) (b : Bool),
      List.Chain' (noTwoSp isSp) (collapseAux isSp b t) := by
  intro t
  induction t with
  | nil =>
    intro b
    exact List.chain'_nil
  | cons a t ih =>
    intro b
    by_cases ha : isSp a = true
    · cases b with
      | true =>
        rw [show collapseAux isSp true (a :: t) = collapseAux isSp true t by
          simp [collapseAux, ha]]
        exact ih true
      | false =>
        rw [show collapseAux isSp false (a :: t) = ' ' :: collapseAux isSp true t by
          simp [collapseAux, ha]]
        rw [List.chain'_cons']
        refine ⟨?_, ih true⟩
        intro y hy
        have hns : isSp y = false :=
          head?_collapseAux_true isSp t y (Option.mem_def.mp hy)
        exact fun hcon => Bool.false_ne_true (hns ▸ hcon.2)
    · rw [show collapseAux isSp b (a :: t) = a :: collapseAux isSp false t by
        simp [collapseAux, ha]]
      rw [List.chain'_cons']
      refine ⟨?_, ih false⟩
      intro y _
      exact fun hcon => Bool.false_ne_true (bool_eq_false ha ▸ hcon.1)

/-- Collapsing fixes a list that has no adjacent whitespace, whose
whitespace characters are all `' '`, and (when the flag says a run is
open) that does not start with whitespace. -/
theorem collapseAux_id (isSp : Char → Bool) :
    ∀ (t : List Char) (b : Bool),
      List.Chain' (noTwoSp isSp) t →
      (∀ c ∈ t, isSp c = true → c = ' ') →
      (b = true → ∀ h, t.head? = some h → isSp h = false) →
      collapseAux isSp b t = t := by
  intro t
  induction t with
  | nil =>
    intro b _ _ _
    rfl
  | cons a t ih =>
    intro b hch hsp hhd
    by_cases ha : isSp a = true
    · cases b with
      | true =>
        have := hhd rfl a rfl
        rw [ha] at this
        exact Bool.noConfusion this
      | false =>
        have ha' : a = ' ' := hsp a (List.mem_cons_self a t) ha
        have ht : collapseAux isSp true t = t := by
          apply ih true (List.chain'_cons'.mp hch).2
          · intro c hc hspc
            exact hsp c (List.mem_cons_of_mem a hc) hspc
          · intro _ h hh
            have hR := (List.chain'_cons'.mp hch).1 h (Option.mem_def.mpr hh)
            cases hq : isSp h
            · rfl
            · exact absurd ⟨ha, hq⟩ hR
        rw [show collapseAux isSp false (a :: t) = ' ' :: collapseAux isSp true t by
          simp [collapseAux, ha]]
        rw [ht, ha']
    · have ht : collapseAux isSp false t = t := by
        apply ih false (List.chain'_cons'.mp hch).2
        · intro c hc hspc
          exact hsp c (List.mem_cons_of_mem a hc) hspc
        · intro hb
          exact absurd hb Bool.false_ne_true
      rw [show collapseAux isSp b (a :: t) = a :: collapseAux isSp false t by
        simp [collapseAux, ha]]
      rw [ht]

/-- The first element surviving `dropWhile` falsifies the predicate. -/
theorem head?_dropWhile {α : Type} (p : α → Bool) :
    ∀ (l : List α) (h : α), (l.dropWhile p).head? = some h → p h = false := by
  intro l
  induction l with
  | nil =>
    intro h hh
    exact Option.noConfusion hh
  | cons a t ih =>
    intro h hh
    rw [List.dropWhile_cons] at hh
    by_cases hpa : p a = true
    · rw [if_pos hpa] at hh
      exact ih h hh
    · rw [if_neg hpa] at hh
      rw [List.head?_cons] at hh
      injection hh with hh
      rw [← hh]
      exact bool_eq_false hpa

theorem chain'_dropWhile {α : Type} {R : α → α → Prop} (p : α → Bool) :
    ∀ (l : List α), List.Chain' R l → List.Chain' R (l.dropWhile p) := by
  intro l
  induction l with
  | nil =>
    intro h
    exact h
  | cons a t ih =>
    intro h
    rw [List.dropWhile_cons]
    by_cases hpa : p a = true
    · rw [if_pos hpa]
      exact ih h.tail
    · rw [if_neg hpa]
      exact h

/-- `noTwoSp` is symmetric, so the no-adjacent-whitespace property
survives reversal. -/
theorem chain'_reverse_noTwo (isSp : Char → Bool) (l : List Char)
    (h : List.Chain' (noTwoSp isSp) l) :
    List.Chain' (noTwoSp isSp) l.reverse := by
  rw [List.chain'_reverse]
  exact h.imp (fun a b hab => fun hcon => hab ⟨hcon.2, hcon.1⟩)

theorem mem_of_mem_trim (isSp : Char → Bool) {s : List Char} {c : Char}
    (h : c ∈ trim isSp s) : c ∈ s := by
  unfold trim at h
  rw [List.mem_reverse] at h
  have h2 := (List.dropWhile_sublist isSp).subset h
  rw [List.mem_reverse] at h2
  exact (List.dropWhile_sublist isSp).subset h2

theorem chain'_trim (isSp : Char → Bool) {s : List Char}
    (h : List.Chain' (noTwoSp isSp) s) :
    List.Chain' (noTwoSp isSp) (trim isSp s) := by
  unfold trim
  exact chain'_reverse_noTwo isSp _
    (chain'_dropWhile isSp _
      (chain'_reverse_noTwo isSp _ (chain'_dropWhile isSp _ h)))

/-- The trimmed list does not start with whitespace. -/
theorem head?_trim (isSp : Char → Bool) (s : List Char) :
    ∀ x, (trim isSp s).head? = some x → isSp x = false := by
  intro x hx
  unfold trim at hx
  have hsplit : List.takeWhile isSp ((s.dropWhile isSp).reverse)
      ++ List.dropWhile isSp ((s.dropWhile isSp).reverse)
      = (s.dropWhile isSp).reverse :=
    List.takeWhile_append_dropWhile isSp _
  have hl1 : s.dropWhile isSp
      = (List.dropWhile isSp ((s.dropWhile isSp).reverse)).reverse
        ++ (List.takeWhile isSp ((s.dropWhile isSp).reverse)).reverse := by
    rw [← List.reverse_append, hsplit, List.reverse_reverse]
  have hhead : (s.dropWhile isSp).head? = some x := by
    rw [hl1]
    cases hw : (List.dropWhile isSp ((s.dropWhile isSp).reverse)).reverse with
    | nil =>
      rw [hw] at hx
      exact Option.noConfusion hx
    | cons a t =>
      rw [hw] at hx
      rw [List.head?_cons] at hx
      rw [List.cons_append, List.head?_cons]
      exact hx
  exact head?_dropWhile isSp s x hhead

/-- The trimmed list does not end with whitespace. -/
theorem getLast?_trim (isSp : Char → Bool) (s : List Char) :
    ∀ x, (trim isSp s).getLast? = some x → isSp x = false := by
  intro x hx
  unfold trim at hx
  rw [List.getLast?_reverse] at hx
  exact head?_dropWhile isSp _ x hx

theorem dropWhile_eq_self_of_head {α : Type} (p : α → Bool) (l : List α)
    (h : ∀ x, l.head? = some x → p x = false) : l.dropWhile p = l := by
  cases l with
  | nil => rfl
  | cons a t =>
    rw [List.dropWhile_cons,
      if_neg (fun hc => Bool.false_ne_true ((h a rfl) ▸ hc))]

/-- Trimming fixes a list that neither starts nor ends with
whitespace. -/
theorem trim_eq_self (isSp : Char → Bool) (l : List Char)
    (hh : ∀ x, l.head? = some x → isSp x = false)
    (hl : ∀ x, l.getLast? = some x → isSp x = false) :
    trim isSp l = l := by
  unfold trim
  rw [dropWhile_eq_self_of_head isSp l hh]
  rw [dropWhile_eq_self_of_head isSp l.reverse
    (fun x hx => hl x (by rw [List.head?_reverse] at hx; exact hx))]
  exact List.reverse_reverse l

/-- Core of the idempotence claim: the concrete strip/collapse/trim part
of `_normalize_title` is a projection — applying it to its own output
changes nothing (for any word-character class, provided `' '` counts as
whitespace, which it does for the regex class `\s`). -/
theorem normalize_core_fix (isW isSp : Char → Bool) (hsp : isSp ' ' = true)
    (u : List Char) :
    trim isSp (collapse isSp (stripOther isW isSp
      (trim isSp (collapse isSp (stripOther isW isSp u)))))
      = trim isSp (collapse isSp (stripOther isW isSp u)) := by
  have hmem : ∀ c ∈ trim isSp (collapse isSp (stripOther isW isSp u)),
      keep isW isSp c = true ∧ (isSp c = true → c = ' ') := by
    intro c hc
    have hc0 : c ∈ collapse isSp (stripOther isW isSp u) :=
      mem_of_mem_trim isSp hc
    unfold collapse at hc0
    rcases mem_collapseAux isSp _ false c hc0 with he | ⟨hm, hnsp⟩
    · subst he
      refine ⟨?_, fun _ => rfl⟩
      unfold keep
      rw [hsp, Bool.or_true]
    · unfold stripOther at hm
      refine ⟨(List.mem_filter.mp hm).2,
        fun hcon => absurd (hnsp ▸ hcon) (fun hb => Bool.false_ne_true hb)⟩
  have hchain : List.Chain' (noTwoSp isSp)
      (trim isSp (collapse isSp (stripOther isW isSp u))) :=
    chain'_trim isSp (chain'_collapseAux isSp _ false)
  have h1 : stripOther isW isSp (trim isSp (collapse isSp (stripOther isW isSp u)))
      = trim isSp (collapse isSp (stripOther isW isSp u)) := by
    unfold stripOther
    exact List.filter_eq_self.mpr (fun c hc => (hmem c hc).1)
  have h2 : collapse isSp (trim isSp (collapse isSp (stripOther isW isSp u)))
      = trim isSp (collapse isSp (stripOther isW isSp u)) := by
    unfold collapse
    exact collapseAux_id isSp _ false hchain (fun c hc => (hmem c hc).2)
      (fun hb => absurd hb Bool.false_ne_true)
  have h3 : trim isSp (trim isSp (collapse isSp (stripOther isW isSp u)))
      = trim isSp (collapse isSp (stripOther isW isSp u)) :=
    trim_eq_self isSp _
      (head?_trim isSp (collapse isSp (stripOther isW isSp u)))
      (getLast?_trim isSp (collapse isSp (stripOther isW isSp u)))
  rw [h1, h2, h3]

/-- Claim C8: title normalization is idempotent.  The Unicode maps NFKC
and `str.lower` are abstract parameters; the hypotheses say exactly
that they fix the normalized output (true of the real Unicode maps: the
output is already NFKC-normalized lowercase, a property outside what a
Lean model of the source can carry).  Everything else — punctuation
stripping, whitespace collapsing, trimming — is concrete and proved
idempotent unconditionally, for any word-character class and any
whitespace class containing `' '`. -/
theorem C8_normalize_title_idempotent (nfkc lower : List Char → List Char)
    (isW isSp : Char → Bool) (hsp : isSp ' ' = true) (T : List Char)
    (h1 : nfkc (_normalize_title nfkc lower isW isSp T)
      = _normalize_title nfkc lower isW isSp T)
    (h2 : lower (_normalize_title nfkc lower isW isSp T)
      = _normalize_title nfkc lower isW isSp T) :
    _normalize_title nfkc lower isW isSp (_normalize_title nfkc lower isW isSp T)
      = _normalize_title nfkc lower isW isSp T := by
  conv_lhs => rw [_normalize_title]
  rw [h1, h2]
  rw [_normalize_title]
  exact normalize_core_fix isW isSp hsp (lower (nfkc T))

/-- Witness for `C8_normalize_title_idempotent` on the ASCII
instantiation and the title of the repository's own test
(`"Hello, World!"`, which normalizes to `"hello world"`). -/
theorem C8_normalize_title_idempotent_witness :
    asciiSpace ' ' = true
    ∧ idNorm (_normalize_title idNorm asciiLower asciiWord asciiSpace
        ("Hello, World!".toList))
      = _normalize_title idNorm asciiLower asciiWord asciiSpace
        ("Hello, World!".toList)
    ∧ asciiLower (_normalize_title idNorm asciiLower asciiWord asciiSpace
        ("Hello, World!".toList))
      = _normalize_title idNorm asciiLower asciiWord asciiSpace
        ("Hello, World!".toList)
    ∧ _normalize_title idNorm asciiLower asciiWord asciiSpace
        (_normalize_title idNorm asciiLower asciiWord asciiSpace
          ("Hello, World!".toList))
      = _normalize_title idNorm asciiLower asciiWord asciiSpace
        ("Hello, World!".toList) :=
  ⟨by decide, by decide, by decide,
    C8_normalize_title_idempotent idNorm asciiLower asciiWord asciiSpace
      (by decide) ("Hello, World!".toList) (by decide) (by decide)⟩

end LexIntel
